import Mathlib

/-!
Verification of `global-secrets-manager` (src/src/lib.rs), a Rust derive
macro that, for an annotated struct, emits a `once_cell::sync::Lazy` global
plus generated `get_secret`/`get` methods fetching the struct's secret
values from AWS Secrets Manager and parsing them with `serde_json`.

The development shallowly embeds:
  * the macro expansion itself (`GlobalSecretsManager_derive`,
    lib.rs lines 122-134): pattern match on the derive input, panicking on
    non-struct input and on unnamed fields, otherwise collecting field
    names and types;
  * the generated runtime code (lib.rs lines 136-156): `get_secret`
    (load AWS config, query the store keyed by the type name stripped of
    its module path, `.unwrap()` the response) and `get` (dotenv, block on
    `get_secret`, parse the payload with `serde_json::from_slice`,
    `.unwrap()` the parse), instrumented with an event trace so that
    ordering and query counts are provable;
  * the single-initialization container: `once_cell::sync::Lazy` is an
    external collaborator (its code is not in this repository), so its
    documented semantics are modelled: a sequential force function
    (`forceT`) for the stored-result / poisoning behavior, and a
    small-step interleaving relation (`CStep`) for the concurrent
    exactly-once guarantee;
  * the payload parser: `serde_json` derived struct deserialization is an
    external collaborator, modelled from the spec's parser contract for
    string-typed fields (each declared field must be present with a
    string value, extras ignored, first offending field named).

Rust machine details with no semantic counterpart here (the `Box::leak` of
the fetched text, thread scheduling of the tokio runtime) are discussed at
the theorems concerned.
-/

namespace GSM

/-! ## Macro layer: the derive input and `GlobalSecretsManager_derive` -/

/-- Field of a struct in the derive input: `syn::Field` restricted to what
the macro reads — an optional identifier (absent for tuple-struct fields)
and the surface text of the type. -/
structure Field where
  ident : Option String
  ty : String
deriving DecidableEq, Repr

/-- The `data` of a `syn::DeriveInput`: a struct with its fields, an enum,
or a union. -/
inductive Data where
  | struct_ (fields : List Field)
  | enum_
  | union_
deriving DecidableEq, Repr

/-- A `syn::DeriveInput` restricted to what the macro destructures:
`let DeriveInput { ident, data, .. }`. -/
structure DeriveInput where
  ident : String
  data : Data
deriving DecidableEq, Repr

/-- What the `quote!` expansion is a function of: the struct identifier
(which names both the Lazy global and the store lookup type), the field
names and the field types. -/
structure Generated where
  ident : String
  field_names : List String
  field_types : List String
deriving DecidableEq, Repr

/-- Result of running the procedural macro: the generated items, or a
panic at expansion time. -/
inductive MacroResult where
  | ok (g : Generated)
  | panic (msg : String)
deriving DecidableEq, Repr

/-- Embeds `fields.iter().map(|f| f.ident.as_ref().expect("expected named
field")).collect()`: collects the field identifiers, short-circuiting to
`none` (the `expect` panic) at the first unnamed field. -/
def collectNames : List Field → Option (List String)
  | [] => some []
  | f :: rest =>
    match f.ident with
    | none => none
    | some n => (collectNames rest).map (fun ns => n :: ns)

/-- Embeds `GlobalSecretsManager_derive` (lib.rs 122-134): non-struct data
panics with "Global_sm can only be applied to structs"; an unnamed field
panics with "expected named field"; otherwise the expansion succeeds with
the collected field names and types. No other validation is performed. -/
def GlobalSecretsManager_derive (input : DeriveInput) : MacroResult :=
  match input.data with
  | .struct_ fields =>
    match collectNames fields with
    | none => .panic "expected named field"
    | some names => .ok ⟨input.ident, names, fields.map (fun f => f.ty)⟩
  | .enum_ => .panic "Global_sm can only be applied to structs"
  | .union_ => .panic "Global_sm can only be applied to structs"

/-! ## Payloads and the parser collaborator -/

/-- A structured-text (JSON) value, the Raw Payload returned by the store.
The store response's `secret_string` is modelled already parsed into its
tree; the byte-level JSON grammar belongs to the external parser. -/
inductive Json where
  | str (s : String)
  | num (n : Int)
  | bool_ (b : Bool)
  | null
  | arr (elems : List Json)
  | obj (entries : List (String × Json))

/-- Parse errors of the payload parser, naming the offending field as the
spec's parser contract requires. -/
inductive ParseErr where
  | missingField (f : String)
  | invalidType (f : String)
  | notAnObject
deriving DecidableEq, Repr

/-- First value bound to key `f` in the payload object, if any. -/
def lookupField (entries : List (String × Json)) (f : String) : Option Json :=
  (entries.find? (fun kv => kv.1 == f)).map (fun kv => kv.2)

/-- Modelled from the spec: `serde_json::from_slice` with a derived
`Deserialize` is an external collaborator; this follows the spec's parser
contract for string-typed fields: each declared field must be present
with a string value, unknown extra keys are ignored, and the first
missing or type-mismatched field (in declaration order) is named in the
error. Returns the field values in declaration order. -/
def deserializeFields (entries : List (String × Json)) :
    List String → Except ParseErr (List (String × String))
  | [] => .ok []
  | f :: rest =>
    match lookupField entries f with
    | none => .error (.missingField f)
    | some (.str v) =>
      (deserializeFields entries rest).map (fun vs => (f, v) :: vs)
    | some _ => .error (.invalidType f)

/-- Modelled from the spec: top level of struct deserialization — the
payload must be a string-keyed object, then the declared fields are
extracted. -/
def deserializeStruct (fields : List String) (j : Json) :
    Except ParseErr (List (String × String)) :=
  match j with
  | .obj entries => deserializeFields entries fields
  | _ => .error .notAnObject

/-! ## The generated runtime: store, panics, events, `get_secret`, `get` -/

/-- Errors of the Secret Store Client collaborator
(`get(key) -> Result<RawPayload, {NotFound, TransportError, AuthError}>`). -/
inductive StoreErr where
  | notFound
  | transportError
  | authError
deriving DecidableEq, Repr

/-- The Secret Store Client: `get_secret_value().secret_id(key).send()`
either fails with a store error or succeeds with a response whose
`secret_string` is an `Option` (absent for binary-only secrets). -/
def Store : Type := String → Except StoreErr (Option Json)

/-- A resolved Secret Bundle for a struct of string-typed fields: the
field values in declaration order. -/
def Bundle : Type := List (String × String)

instance : DecidableEq Bundle := by
  unfold Bundle
  infer_instance

/-- Panics the generated runtime code can raise: the two `.unwrap()` calls
in `get_secret`, the parse `.unwrap()` in `get`, and the panic a poisoned
`once_cell::sync::Lazy` raises on re-access. -/
inductive Panic where
  | unwrapErr (e : StoreErr)
  | unwrapNone
  | parseFail (e : ParseErr)
  | poisonedLazy
deriving DecidableEq, Repr

/-- Observable steps of a resolution, in the order the generated code
performs them: `dotenvy::dotenv()`, `aws_config::from_env().load()`,
the store query carrying the exact key string passed to the client,
the `serde_json` parse, and the Lazy cell storing the computed value. -/
inductive Event where
  | loadDotenv
  | loadConfig
  | query (key : String)
  | parse
  | storeResult
deriving DecidableEq, Repr

/-- Embeds `std::any::type_name::<Self>().split("::").last().unwrap()`:
the fully qualified type name is modelled as its `"::"`-separated
segments, the module path followed by the struct identifier; `last()` on
a split is never empty, so the `unwrap` is total. -/
def secretKeyOf (modulePath : List String) (ident : String) : String :=
  ((modulePath ++ [ident]).getLast?).getD ""

/-- Embeds the generated `get_secret` (lib.rs 140-146): load the AWS
config from the environment, query the store with the type name stripped
of its module path, `.unwrap()` the send result and then the
`secret_string` option. Returns the result paired with the event trace. -/
def get_secret (modulePath : List String) (g : Generated) (store : Store) :
    Except Panic Json × List Event :=
  match store (secretKeyOf modulePath g.ident) with
  | .error e =>
    (.error (.unwrapErr e),
      [.loadConfig, .query (secretKeyOf modulePath g.ident)])
  | .ok none =>
    (.error .unwrapNone,
      [.loadConfig, .query (secretKeyOf modulePath g.ident)])
  | .ok (some payload) =>
    (.ok payload,
      [.loadConfig, .query (secretKeyOf modulePath g.ident)])

/-- Embeds the generated `get` (lib.rs 148-155): `dotenvy::dotenv().ok()`,
block on `get_secret`, then parse the fetched text with
`serde_json::from_slice` and `.unwrap()` the result. (The source's
`Box::leak` of the text affects only memory lifetime, not the value.) -/
def get (modulePath : List String) (g : Generated) (store : Store) :
    Except Panic Bundle × List Event :=
  match get_secret modulePath g store with
  | (.error p, evs) => (.error p, .loadDotenv :: evs)
  | (.ok payload, evs) =>
    match deserializeStruct g.field_names payload with
    | .error pe => (.error (.parseFail pe), .loadDotenv :: evs ++ [.parse])
    | .ok vals => (.ok vals, .loadDotenv :: evs ++ [.parse])

/-! ## The Lazy cell collaborator: sequential semantics -/

/-- Modelled from the spec: state of a `once_cell::sync::Lazy` cell
(external collaborator). `unevaluated` still holds the initializer;
`evaluated v` holds the stored value; `poisoned` is the state after the
initializer was consumed but panicked, so the closure is gone. -/
inductive LazySt where
  | unevaluated
  | evaluated (v : Bundle)
  | poisoned
deriving DecidableEq

/-- Modelled from the spec: `Lazy::force` / `Deref`. On the first access
the initializer runs: its value is stored (`storeResult`) on success,
while a panic propagates and leaves the cell poisoned. A later access
returns the stored value immediately with no events, and an access to a
poisoned cell panics ("Lazy instance has previously been poisoned")
without re-running anything. Returns (result, events of this access,
new state). -/
def forceT (st : LazySt) (init : Except Panic Bundle × List Event) :
    Except Panic Bundle × List Event × LazySt :=
  match st with
  | .evaluated v => (.ok v, [], .evaluated v)
  | .poisoned => (.error .poisonedLazy, [], .poisoned)
  | .unevaluated =>
    match init with
    | (.ok v, evs) => (.ok v, evs ++ [.storeResult], .evaluated v)
    | (.error p, evs) => (.error p, evs, .poisoned)

/-! ## The Lazy cell collaborator: concurrent exactly-once machine -/

/-- State of the shared once-cell as concurrent threads see it. -/
inductive CellState where
  | unstarted
  | inProgress
  | done
deriving DecidableEq, Repr

/-- Program counter of one thread dereferencing the Lazy handle. -/
inductive TSt where
  | start
  | running
  | waiting
  | finished
deriving DecidableEq, Repr

/-- Global state of N threads performing first access on one handle:
the cell, the number of times the initializer (the generated `get`) has
been invoked, and each thread's program counter. -/
structure Conc where
  cell : CellState
  calls : Nat
  threads : List TSt
deriving DecidableEq, Repr

/-- Modelled from the spec: interleaving semantics of concurrent first
access through `once_cell::sync::Lazy` (§5: the transition is guarded by
mutual exclusion; contenders suspend instead of fetching on their own).
A thread at `start` either wins the unstarted cell (invoking the
initializer, `fetch`), queues behind an in-flight initialization
(`join`), or reads an already-completed cell (`hit`); the winner
completes (`complete`); queued threads resume once the cell is done
(`wake`). -/
inductive CStep : Conc → Conc → Prop
  | fetch (c : Conc) (i : Nat) (hi : c.threads.get? i = some .start)
      (hc : c.cell = .unstarted) :
      CStep c ⟨.inProgress, c.calls + 1, c.threads.set i .running⟩
  | join (c : Conc) (i : Nat) (hi : c.threads.get? i = some .start)
      (hc : c.cell = .inProgress) :
      CStep c ⟨.inProgress, c.calls, c.threads.set i .waiting⟩
  | hit (c : Conc) (i : Nat) (hi : c.threads.get? i = some .start)
      (hc : c.cell = .done) :
      CStep c ⟨.done, c.calls, c.threads.set i .finished⟩
  | complete (c : Conc) (i : Nat) (hi : c.threads.get? i = some .running)
      (hc : c.cell = .inProgress) :
      CStep c ⟨.done, c.calls, c.threads.set i .finished⟩
  | wake (c : Conc) (i : Nat) (hi : c.threads.get? i = some .waiting)
      (hc : c.cell = .done) :
      CStep c ⟨.done, c.calls, c.threads.set i .finished⟩

/-- Initial state: N threads all about to perform first access. -/
def initConc (n : Nat) : Conc :=
  ⟨.unstarted, 0, List.replicate n .start⟩

/-- States reachable by any interleaving of N first-access threads. -/
def Reachable (n : Nat) (s : Conc) : Prop :=
  Relation.ReflTransGen CStep (initConc n) s

/-- Whether an event is a store query. -/
def Event.isQuery : Event → Bool
  | .query _ => true
  | _ => false

/-! ## Concrete fixtures (the crate's documented example) -/

/-- The crate's documented example struct `SampleSecrets { key1: String,
key2: String }` as a derive input. -/
def sampleInput : DeriveInput :=
  ⟨"SampleSecrets", .struct_ [⟨some "key1", "String"⟩, ⟨some "key2", "String"⟩]⟩

/-- Expansion of the sample input. -/
def gSample : Generated :=
  ⟨"SampleSecrets", ["key1", "key2"], ["String", "String"]⟩

/-- The documented store contents: the entry named `SampleSecrets` holds
`{"key1":"value1","key2":"value2"}`. -/
def sampleStore : Store := fun key =>
  if key = "SampleSecrets" then
    .ok (some (.obj [("key1", .str "value1"), ("key2", .str "value2")]))
  else
    .error .notFound

/-- A store with no entry at all: every lookup is `NotFound`. -/
def missStore : Store := fun _ => .error .notFound

/-- Whether an `Except` result is a success. -/
def resOk {ε α : Type} : Except ε α → Bool
  | .ok _ => true
  | .error _ => false

/-- The Raw Payload the store hands back for `key`, when the query and the
`secret_string` extraction both succeed. -/
def fetchedPayload (store : Store) (key : String) : Option Json :=
  match store key with
  | .ok (some p) => some p
  | _ => none

/-- Invariant of the concurrent first-access machine: the thread count is
fixed, the initializer-call counter is 0 exactly while the cell is
untouched and 1 as soon as it is claimed, and a thread can only have
finished once the cell is done. -/
def Inv (n : Nat) (s : Conc) : Prop :=
  s.threads.length = n ∧
  (s.cell = .unstarted → s.calls = 0) ∧
  (s.cell ≠ .unstarted → s.calls = 1) ∧
  (∀ t ∈ s.threads, t = .finished → s.cell = .done)

/-! ## Theorems -/

/-- The `split("::").last()` key derivation returns the bare identifier,
whatever the module path: the namespace is stripped and nothing else is
changed. -/
theorem secretKeyOf_eq (modulePath : List String) (ident : String) :
    secretKeyOf modulePath ident = ident := by
  simp [secretKeyOf]

/-- C7: for a schema with fields `key1: String` and `key2: String` and a
store payload `{"key1":"value1","key2":"value2"}`, resolution through the
generated code succeeds and yields a Bundle whose `key1` field equals
`"value1"` and whose `key2` field equals `"value2"`. -/
theorem gsm_C7_schema_fidelity :
    GlobalSecretsManager_derive sampleInput = .ok gSample ∧
    ∃ b : Bundle,
      (forceT .unevaluated (get ["crate"] gSample sampleStore)).1 = .ok b ∧
      List.lookup "key1" b = some "value1" ∧
      List.lookup "key2" b = some "value2" :=
  ⟨rfl, [("key1", "value1"), ("key2", "value2")], rfl, rfl, rfl⟩

/-- C10: applying the derive macro to an enum or a union panics at
expansion time with "Global_sm can only be applied to structs", and
applying it to a tuple struct (unnamed fields) panics with "expected
named field"; in all three cases no generated items are produced. -/
theorem gsm_C10_nonstruct_and_tuple_panics (ident ty : String) (rest : List Field) :
    GlobalSecretsManager_derive ⟨ident, .enum_⟩ =
      .panic "Global_sm can only be applied to structs" ∧
    GlobalSecretsManager_derive ⟨ident, .union_⟩ =
      .panic "Global_sm can only be applied to structs" ∧
    GlobalSecretsManager_derive ⟨ident, .struct_ (⟨none, ty⟩ :: rest)⟩ =
      .panic "expected named field" :=
  ⟨rfl, rfl, rfl⟩

/-- C5 counterexample: the derive macro performs no declaration
validation beyond requiring a struct with named fields — a struct with
zero fields and a struct with two fields both named `a` are both accepted
(the expansion succeeds), so no `DeclarationError` is raised at
definition time for either malformed schema. -/
theorem gsm_C5_counterexample :
    GlobalSecretsManager_derive ⟨"S", .struct_ []⟩ = .ok ⟨"S", [], []⟩ ∧
    GlobalSecretsManager_derive
        ⟨"S", .struct_ [⟨some "a", "String"⟩, ⟨some "a", "String"⟩]⟩ =
      .ok ⟨"S", ["a", "a"], ["String", "String"]⟩ :=
  ⟨rfl, rfl⟩

/-- Collecting field names succeeds whenever every field is named. -/
theorem collectNames_of_named (fields : List Field)
    (h : ∀ f ∈ fields, (Field.ident f).isSome) :
    ∃ ns, collectNames fields = some ns := by
  induction fields with
  | nil => exact ⟨[], rfl⟩
  | cons f rest ih =>
    obtain ⟨n, hn⟩ := Option.isSome_iff_exists.mp (h f (List.mem_cons_self f rest))
    obtain ⟨ns, hns⟩ := ih (fun f' hf' => h f' (List.mem_cons_of_mem f hf'))
    exact ⟨n :: ns, by simp [collectNames, hn, hns]⟩

/-- C5 amended: the Schema Binder does not validate the field list — any
struct declaration whose fields are all named is accepted at definition
time, including one with zero fields or with duplicate field names; the
only declaration-time failures are the non-struct and unnamed-field
panics. -/
theorem gsm_C5_amended (ident : String) (fields : List Field)
    (h : ∀ f ∈ fields, (Field.ident f).isSome) :
    ∃ g, GlobalSecretsManager_derive ⟨ident, .struct_ fields⟩ = .ok g ∧
      g.ident = ident := by
  obtain ⟨ns, hns⟩ := collectNames_of_named fields h
  exact ⟨⟨ident, ns, fields.map (fun f => f.ty)⟩,
    by simp [GlobalSecretsManager_derive, hns], rfl⟩

/-- Witness for the amended C5: the duplicate-name declaration
`struct S { a: String, a: String }` is accepted by the derive. -/
theorem gsm_C5_amended_witness :
    ∃ g, GlobalSecretsManager_derive
        ⟨"S", .struct_ [⟨some "a", "String"⟩, ⟨some "a", "String"⟩]⟩ = .ok g ∧
      g.ident = "S" :=
  gsm_C5_amended "S" [⟨some "a", "String"⟩, ⟨some "a", "String"⟩] (by decide)

/-- The trace of `get_secret` is always the config load followed by one
store query carrying the bare struct identifier as the key. -/
theorem get_secret_trace (modulePath : List String) (g : Generated) (store : Store) :
    (get_secret modulePath g store).2 = [.loadConfig, .query g.ident] := by
  unfold get_secret
  cases hs : store (secretKeyOf modulePath g.ident) with
  | error e => simp [secretKeyOf_eq]
  | ok o => cases o with
    | none => simp [secretKeyOf_eq]
    | some p => simp [secretKeyOf_eq]

/-- A successful expansion carries the declared identifier unchanged. -/
theorem derive_ok_ident (input : DeriveInput) (g : Generated)
    (hg : GlobalSecretsManager_derive input = .ok g) : g.ident = input.ident := by
  obtain ⟨ident, data⟩ := input
  cases data with
  | struct_ fields =>
    cases hcn : collectNames fields with
    | none => simp [GlobalSecretsManager_derive, hcn] at hg
    | some ns =>
      simp [GlobalSecretsManager_derive, hcn] at hg
      rw [← hg]
  | enum_ => simp [GlobalSecretsManager_derive] at hg
  | union_ => simp [GlobalSecretsManager_derive] at hg

/-- C3: the key the generated `get_secret` passes to the Secret Store
Client is exactly the schema's declared identifier — the module path of
the fully qualified type name is stripped and no other transformation is
applied, as witnessed by the single query event of the trace carrying the
declared name verbatim. -/
theorem gsm_C3_key_verbatim (modulePath : List String) (input : DeriveInput)
    (g : Generated) (store : Store)
    (hg : GlobalSecretsManager_derive input = .ok g) :
    (get_secret modulePath g store).2 = [.loadConfig, .query input.ident] := by
  rw [get_secret_trace, derive_ok_ident input g hg]

/-- Witness for C3: expanding the documented `SampleSecrets` struct and
running the generated fetch against the sample store queries the key
`"SampleSecrets"` exactly. -/
theorem gsm_C3_witness :
    (get_secret ["crate"] gSample sampleStore).2 =
      [.loadConfig, .query "SampleSecrets"] :=
  gsm_C3_key_verbatim ["crate"] sampleInput gSample sampleStore rfl

/-- C9: a full first resolution performs its steps in the source's order:
configuration acquisition (dotenv, then the AWS config load), then the
single store query, then — only if a payload was obtained — the parse,
then — only if the parse succeeded — the storing of the result. -/
theorem gsm_C9_resolve_order (modulePath : List String) (g : Generated) (store : Store) :
    (forceT .unevaluated (get modulePath g store)).2.1 =
      [.loadDotenv, .loadConfig, .query (secretKeyOf modulePath g.ident)] ++
        (match fetchedPayload store (secretKeyOf modulePath g.ident) with
          | none => []
          | some p =>
            .parse ::
              (if resOk (deserializeStruct g.field_names p) then [.storeResult]
                else [])) := by
  unfold forceT get get_secret fetchedPayload
  cases hs : store (secretKeyOf modulePath g.ident) with
  | error e => simp [hs]
  | ok o =>
    cases o with
    | none => simp [hs]
    | some p =>
      cases hd : deserializeStruct g.field_names p with
      | error pe => simp [hs, hd, resOk]
      | ok vals => simp [hs, hd, resOk]

/-- C6: once resolution has completed successfully, every further access
returns the stored Bundle immediately: the access produces no events at
all (in particular no store query and no parse) and leaves the cell
unchanged. -/
theorem gsm_C6_idempotent_reaccess (init : Except Panic Bundle × List Event)
    (v : Bundle) (evs : List Event) (st : LazySt)
    (h : forceT .unevaluated init = (.ok v, evs, st)) :
    forceT st init = (.ok v, [], st) := by
  obtain ⟨r, evs0⟩ := init
  cases r with
  | error p => simp [forceT] at h
  | ok w =>
    simp [forceT] at h
    obtain ⟨hv, -, hst⟩ := h
    rw [← hst, ← hv]
    rfl

/-- Witness for C6: after the sample resolution completes, a second
access returns the stored Bundle with an empty event trace. -/
theorem gsm_C6_witness :
    forceT (.evaluated [("key1", "value1"), ("key2", "value2")])
        (get ["crate"] gSample sampleStore) =
      (.ok [("key1", "value1"), ("key2", "value2")], [],
        .evaluated [("key1", "value1"), ("key2", "value2")]) :=
  gsm_C6_idempotent_reaccess (get ["crate"] gSample sampleStore)
    [("key1", "value1"), ("key2", "value2")]
    [.loadDotenv, .loadConfig, .query "SampleSecrets", .parse, .storeResult]
    (.evaluated [("key1", "value1"), ("key2", "value2")]) rfl

/-- C2 counterexample: with an empty store, the first access to the
generated Lazy global propagates the `unwrap` panic on `NotFound`, while
the second access panics with the poisoned-Lazy panic — a different
failure. So it is false that the failure is stored as a `Done(Err(...))`
result that every future caller observes identically: the generated code
panics and poisons the cell instead. -/
theorem gsm_C2_counterexample :
    (forceT .unevaluated (get ["crate"] gSample missStore)).1 =
      .error (.unwrapErr .notFound) ∧
    (forceT .poisoned (get ["crate"] gSample missStore)).1 =
      .error .poisonedLazy ∧
    (forceT .unevaluated (get ["crate"] gSample missStore)).1 ≠
      (forceT .poisoned (get ["crate"] gSample missStore)).1 :=
  ⟨rfl, rfl, fun hcontra => Panic.noConfusion (Except.error.inj hcontra)⟩

/-- The generated `get` never raises the poisoned-Lazy panic itself: its
failures are the two store unwraps and the parse unwrap. -/
theorem get_error_not_poisoned (modulePath : List String) (g : Generated)
    (store : Store) (p : Panic) (evs : List Event)
    (h : get modulePath g store = (.error p, evs)) : p ≠ .poisonedLazy := by
  unfold get get_secret at h
  cases hs : store (secretKeyOf modulePath g.ident) with
  | error e =>
    rw [hs] at h
    simp at h
    obtain ⟨hp, -⟩ := h
    rw [← hp]
    simp
  | ok o =>
    rw [hs] at h
    cases o with
    | none =>
      simp at h
      obtain ⟨hp, -⟩ := h
      rw [← hp]
      simp
    | some payload =>
      cases hd : deserializeStruct g.field_names payload with
      | error pe =>
        simp [hd] at h
        obtain ⟨hp, -⟩ := h
        rw [← hp]
        simp
      | ok vals => simp [hd] at h

/-- C2 amended: if any resolution step fails, the generated code panics
with that step's failure (an `unwrap` on the store error or absent
secret string, or the parse failure); the panic propagates out of the
first access and leaves the Lazy cell poisoned, so every subsequent
access performs no retry and no second fetch (its event trace is empty)
but panics with the distinct poisoned-Lazy panic rather than observing
the originally recorded failure. -/
theorem gsm_C2_terminal_panic (modulePath : List String) (g : Generated)
    (store : Store) (p : Panic) (evs : List Event)
    (h : get modulePath g store = (.error p, evs)) :
    forceT .unevaluated (get modulePath g store) = (.error p, evs, .poisoned) ∧
    forceT .poisoned (get modulePath g store) =
      (.error .poisonedLazy, [], .poisoned) ∧
    p ≠ .poisonedLazy := by
  refine ⟨by rw [h]; rfl, by rw [h]; rfl,
    get_error_not_poisoned modulePath g store p evs h⟩

/-- Witness for the amended C2: the empty store drives the failure path —
first access panics on the `NotFound` unwrap and poisons the cell, the
second access panics as poisoned with no further events. -/
theorem gsm_C2_witness :
    forceT .unevaluated (get ["crate"] gSample missStore) =
      (.error (.unwrapErr .notFound),
        [.loadDotenv, .loadConfig, .query "SampleSecrets"], .poisoned) ∧
    forceT .poisoned (get ["crate"] gSample missStore) =
      (.error .poisonedLazy, [], .poisoned) ∧
    (Panic.unwrapErr .notFound) ≠ Panic.poisonedLazy :=
  gsm_C2_terminal_panic ["crate"] gSample missStore (.unwrapErr .notFound)
    [.loadDotenv, .loadConfig, .query "SampleSecrets"] rfl

/-- Mapping over an `Except` result is a success exactly when the
original result is. -/
theorem except_map_ok_iff {ε α β : Type} (f : α → β) (e : Except ε α) :
    (∃ b, Except.map f e = .ok b) ↔ ∃ a, e = .ok a := by
  cases e <;> simp [Except.map]

/-- The parser succeeds exactly when every declared field is bound to a
string value in the payload object. -/
theorem deserializeFields_ok_iff (entries : List (String × Json))
    (fields : List String) :
    (∃ b, deserializeFields entries fields = .ok b) ↔
      ∀ f ∈ fields, ∃ s, lookupField entries f = some (.str s) := by
  induction fields with
  | nil => simp [deserializeFields]
  | cons f rest ih =>
    cases hl : lookupField entries f with
    | none => simp [deserializeFields, hl]
    | some j =>
      cases j with
      | str v =>
        simp [deserializeFields, hl, except_map_ok_iff, ih,
          List.forall_mem_cons]
      | num n => simp [deserializeFields, hl]
      | bool_ b => simp [deserializeFields, hl]
      | null => simp [deserializeFields, hl]
      | arr elems => simp [deserializeFields, hl]
      | obj entries2 => simp [deserializeFields, hl]

/-- A payload entry whose key is not a declared field never changes the
parse result: unknown extra keys are ignored. -/
theorem deserializeFields_ignores_extra (entries : List (String × Json))
    (k : String) (v : Json) (fields : List String) (hk : k ∉ fields) :
    deserializeFields ((k, v) :: entries) fields =
      deserializeFields entries fields := by
  induction fields with
  | nil => rfl
  | cons f rest ih =>
    have hfk : (k == f) = false := by
      simp only [List.mem_cons, not_or] at hk
      simp [hk.1]
    have hl : lookupField ((k, v) :: entries) f = lookupField entries f := by
      simp [lookupField, List.find?, hfk]
    have hrest := ih (fun hm => hk (List.mem_cons_of_mem f hm))
    cases hl2 : lookupField entries f with
    | none => simp [deserializeFields, hl, hl2]
    | some j =>
      cases j with
      | str s => simp [deserializeFields, hl, hl2, hrest]
      | num n => simp [deserializeFields, hl, hl2]
      | bool_ b => simp [deserializeFields, hl, hl2]
      | null => simp [deserializeFields, hl, hl2]
      | arr elems => simp [deserializeFields, hl, hl2]
      | obj entries2 => simp [deserializeFields, hl, hl2]

/-- C4: parsing a payload object into a schema succeeds iff each declared
field is present with a (string-typed) compatible value; a payload entry
whose key is not declared is ignored; and the documented example — the
payload `{"key1":"value1"}` against a schema declaring `key1` and `key2`
— fails naming the offending field `key2`. -/
theorem gsm_C4_parse_contract (fields : List String)
    (entries : List (String × Json)) (k : String) (v : Json)
    (hk : k ∉ fields) :
    ((∃ b, deserializeStruct fields (.obj entries) = .ok b) ↔
      ∀ f ∈ fields, ∃ s, lookupField entries f = some (.str s)) ∧
    deserializeStruct fields (.obj ((k, v) :: entries)) =
      deserializeStruct fields (.obj entries) ∧
    deserializeStruct ["key1", "key2"] (.obj [("key1", .str "value1")]) =
      .error (.missingField "key2") :=
  ⟨deserializeFields_ok_iff entries fields,
    deserializeFields_ignores_extra entries k v fields hk, rfl⟩

/-- Witness for C4 at the schema `["key1"]`, the payload
`{"key1":"a"}` and the undeclared extra key `"extra"`. -/
theorem gsm_C4_witness :
    ((∃ b, deserializeStruct ["key1"] (.obj [("key1", .str "a")]) = .ok b) ↔
      ∀ f ∈ ["key1"], ∃ s,
        lookupField [("key1", .str "a")] f = some (.str s)) ∧
    deserializeStruct ["key1"] (.obj (("extra", .null) :: [("key1", .str "a")])) =
      deserializeStruct ["key1"] (.obj [("key1", .str "a")]) ∧
    deserializeStruct ["key1", "key2"] (.obj [("key1", .str "value1")]) =
      .error (.missingField "key2") :=
  gsm_C4_parse_contract ["key1"] [("key1", .str "a")] "extra" .null (by decide)

/-- The machine invariant holds in the initial state. -/
theorem inv_initConc (n : Nat) : Inv n (initConc n) := by
  refine ⟨List.length_replicate n _, fun _ => rfl, fun hc => absurd rfl hc, ?_⟩
  intro t ht htf
  rw [List.eq_of_mem_replicate ht] at htf
  exact TSt.noConfusion htf

/-- Every step of the concurrent first-access machine preserves the
invariant: in particular the initializer-call counter moves from 0 to 1
exactly when the cell is claimed, and never again. -/
theorem inv_step (n : Nat) (s t : Conc) (h : Inv n s) (hs : CStep s t) :
    Inv n t := by
  obtain ⟨hlen, h0, h1, hfin⟩ := h
  cases hs with
  | fetch i hi hc =>
    refine ⟨by simp [hlen],
      by intro hcell
         exact absurd (show CellState.inProgress = CellState.unstarted from hcell) (by decide),
      by intro _; show s.calls + 1 = 1; rw [h0 hc], ?_⟩
    intro t ht htf
    rcases List.mem_or_eq_of_mem_set ht with hmem | hrun
    · have hdone := hfin t hmem htf
      rw [hc] at hdone
      exact absurd hdone (by decide)
    · rw [hrun] at htf
      exact absurd htf (by decide)
  | join i hi hc =>
    refine ⟨by simp [hlen],
      by intro hcell
         exact absurd (show CellState.inProgress = CellState.unstarted from hcell) (by decide),
      by intro _; exact h1 (by rw [hc]; decide), ?_⟩
    intro t ht htf
    rcases List.mem_or_eq_of_mem_set ht with hmem | hwait
    · have hdone := hfin t hmem htf
      rw [hc] at hdone
      exact absurd hdone (by decide)
    · rw [hwait] at htf
      exact absurd htf (by decide)
  | hit i hi hc =>
    exact ⟨by simp [hlen],
      by intro hcell
         exact absurd (show CellState.done = CellState.unstarted from hcell) (by decide),
      by intro _; exact h1 (by rw [hc]; decide), fun _ _ _ => rfl⟩
  | complete i hi hc =>
    exact ⟨by simp [hlen],
      by intro hcell
         exact absurd (show CellState.done = CellState.unstarted from hcell) (by decide),
      by intro _; exact h1 (by rw [hc]; decide), fun _ _ _ => rfl⟩
  | wake i hi hc =>
    exact ⟨by simp [hlen],
      by intro hcell
         exact absurd (show CellState.done = CellState.unstarted from hcell) (by decide),
      by intro _; exact h1 (by rw [hc]; decide), fun _ _ _ => rfl⟩

/-- Every reachable state of the machine satisfies the invariant. -/
theorem inv_reachable (n : Nat) (s : Conc) (h : Reachable n s) : Inv n s := by
  induction h with
  | refl => exact inv_initConc n
  | tail hr hstep ih => exact inv_step n _ _ ih hstep

/-- C1: under any interleaving of any number of threads performing first
access on one handle, the initializer — the generated `get`, whose single
execution performs exactly one Secret Store query — runs at most once,
and exactly once by the time every thread has finished its access. -/
theorem gsm_C1_exactly_once (n : Nat) (s : Conc) (h : Reachable n s) :
    s.calls ≤ 1 ∧
    ((0 < n ∧ ∀ t ∈ s.threads, t = .finished) → s.calls = 1) ∧
    (∀ (modulePath : List String) (g : Generated) (store : Store),
      ((get modulePath g store).2.filter Event.isQuery).length = 1) := by
  obtain ⟨hlen, h0, h1, hfin⟩ := inv_reachable n s h
  refine ⟨?_, ?_, ?_⟩
  · by_cases hc : s.cell = .unstarted
    · rw [h0 hc]
      exact Nat.zero_le 1
    · rw [h1 hc]
  · rintro ⟨hn, hall⟩
    have hne : s.threads ≠ [] := by
      intro hnil
      rw [hnil] at hlen
      rw [← hlen] at hn
      exact Nat.lt_irrefl 0 hn
    obtain ⟨t, ht⟩ := List.exists_mem_of_ne_nil s.threads hne
    have hdone : s.cell = .done := hfin t ht (hall t ht)
    exact h1 (by rw [hdone]; exact fun h' => CellState.noConfusion h')
  · intro modulePath g store
    unfold get get_secret
    cases hs : store (secretKeyOf modulePath g.ident) with
    | error e => simp [Event.isQuery]
    | ok o =>
      cases o with
      | none => simp [Event.isQuery]
      | some p =>
        cases hd : deserializeStruct g.field_names p with
        | error pe => simp [hd, Event.isQuery]
        | ok vals => simp [hd, Event.isQuery]

/-- Witness for C1: an explicit interleaving of two threads — the first
claims the cell and fetches, the second joins and waits, the first
completes, the second wakes — reaches the all-finished state with the
initializer invoked exactly once. -/
theorem gsm_C1_witness :
    (⟨.done, 1, [.finished, .finished]⟩ : Conc).calls ≤ 1 ∧
    ((0 < 2 ∧ ∀ t ∈ (⟨.done, 1, [.finished, .finished]⟩ : Conc).threads,
        t = .finished) →
      (⟨.done, 1, [.finished, .finished]⟩ : Conc).calls = 1) ∧
    (∀ (modulePath : List String) (g : Generated) (store : Store),
      ((get modulePath g store).2.filter Event.isQuery).length = 1) :=
  gsm_C1_exactly_once 2 ⟨.done, 1, [.finished, .finished]⟩
    (Relation.ReflTransGen.head (CStep.fetch (initConc 2) 0 rfl rfl)
      (Relation.ReflTransGen.head (CStep.join _ 1 rfl rfl)
        (Relation.ReflTransGen.head (CStep.complete _ 0 rfl rfl)
          (Relation.ReflTransGen.head (CStep.wake _ 1 rfl rfl)
            Relation.ReflTransGen.refl))))

end GSM
